import Mathlib

/-!
Verification of the wit.ai Go client library (package `witai`).

The Go source is shallowly embedded: Go structs become Lean structures,
`*T` pointer fields (nil vs. set) become `Option`, Go slices become lists,
and the control flow of each client operation is reproduced as a pure
function over an explicit model of the outcome of the HTTP transport.
-/

namespace Witai

/-- Embedded error shape shared by every top-level response
(`types.go`, `ResponseError`).  The `error` and `code` fields are the ones
declared with json tags `error,omitempty` and `code,omitempty`; the
`errors` (per-item errors of batch operations) and `body` (raw error body)
fields are the ones read by `ResponseError.HasError` and
`ResponseError.ErrorMessage` in `types_helper.go`.  A nil Go pointer is
`none`, a nil/empty Go slice is `[]`. -/
structure ResponseError where
  error : Option String
  code : Option String
  errors : List String
  body : Option String
deriving Repr, DecidableEq

/-- `func (r ResponseError) HasError() bool` (`types_helper.go`):
`if r.Error != nil || len(r.Errors) > 0 || r.Body != nil { return true };
return false`. -/
def ResponseError.HasError (r : ResponseError) : Bool :=
  if r.error.isSome ∨ r.errors.length > 0 ∨ r.body.isSome then true else false

/-- `func (r ResponseError) ErrorMessage() string` (`types_helper.go`):
copies `r.Errors`, appends `*r.Error` when non-nil, appends `*r.Body` when
non-nil, and joins with `","`. -/
def ResponseError.ErrorMessage (r : ResponseError) : String :=
  let errs := [] ++ r.errors
  let errs := match r.error with
    | some e => errs ++ [e]
    | none => errs
  let errs := match r.body with
    | some b => errs ++ [b]
    | none => errs
  String.intercalate "," errs

/-- C1: `HasError` returns true iff the top-level error message is
non-absent, or the per-item errors list is non-empty, or the raw error
body is non-absent; in particular it is false when all three are absent. -/
theorem hasError_iff_indicator (r : ResponseError) :
    r.HasError = true ↔ (r.error ≠ none ∨ r.errors ≠ [] ∨ r.body ≠ none) := by
  unfold ResponseError.HasError
  constructor
  · intro h
    by_contra hcon
    push_neg at hcon
    obtain ⟨h1, h2, h3⟩ := hcon
    rw [if_neg] at h
    · exact Bool.false_ne_true h
    · push_neg
      refine ⟨?_, ?_, ?_⟩
      · simp [h1]
      · simp [h2]
      · simp [h3]
  · intro h
    rw [if_pos]
    rcases h with h | h | h
    · exact Or.inl (by simpa [Option.isSome_iff_exists] using Option.ne_none_iff_exists'.mp h)
    · refine Or.inr (Or.inl ?_)
      have := List.length_pos.mpr h
      omega
    · exact Or.inr (Or.inr (by simpa [Option.isSome_iff_exists] using Option.ne_none_iff_exists'.mp h))

/-- C2: `ErrorMessage` is the comma-joined concatenation of the per-item
errors in list order, then the single error message when present, then the
raw body when present; evaluated also at a response carrying all three
indicators at once. -/
theorem errorMessage_concat_order (r : ResponseError) :
    r.ErrorMessage = String.intercalate "," (r.errors ++ r.error.toList ++ r.body.toList) ∧
    ResponseError.ErrorMessage ⟨some "E", none, ["i1", "i2"], some "B"⟩ = "i1,i2,E,B" := by
  constructor
  · unfold ResponseError.ErrorMessage
    cases r.error <;> cases r.body <;> simp
  · rfl

/-- C3 counterexample: a response whose embedded error record carries a
non-null `code` but whose error message, per-item errors and raw body are
all absent has `HasError = false`, refuting the claim that such a response
signals failure. -/
theorem code_only_not_failure_cex :
    (⟨none, some "unknown", [], none⟩ : ResponseError).code = some "unknown" ∧
    (⟨none, some "unknown", [], none⟩ : ResponseError).HasError = false := by
  exact ⟨rfl, rfl⟩

/-- C3 (amended): a non-null `code` alone does not signal failure —
`HasError` inspects only the error message, the per-item errors and the
raw body, so a response whose other three indicators are absent yields
`HasError = false` whatever its `code` field holds. -/
theorem code_only_hasError_false (c : Option String) :
    (⟨none, c, [], none⟩ : ResponseError).HasError = false := by
  rfl

/-- One candidate interpretation (`types.go`, `Outcome`).  The free-form
`map[string]interface{}` entity map is modeled as an association list with
opaque string values; the `float32` confidence is modeled as a rational
(no claim computes with it). -/
structure Outcome where
  text : Option String
  intent : Option String
  entities : List (String × String)
  confidence : Rat
deriving Repr, DecidableEq

/-- Text/speech query result (`types.go`, `Message`): embeds
`ResponseError`, plus `msg_id`, `_text` and the outcome list. -/
structure Message extends ResponseError where
  messageId : Option String
  text : Option String
  outcomes : List Outcome
deriving Repr, DecidableEq

/-- One turn of a stateful dialogue (`types.go`, `Converse`): embeds
`ResponseError`, plus optional `type`, `msg`, `action`, the entity map and
the confidence score. -/
structure Converse extends ResponseError where
  type : Option String
  message : Option String
  action : Option String
  entities : List (String × String)
  confidence : Rat
deriving Repr, DecidableEq

/-- Outcome of one HTTP exchange as seen by an endpoint operation, before
error normalization: `c.request`/`c.upload` returned a transport error,
or `json.Unmarshal` failed on the returned bytes, or a typed value was
decoded. -/
inductive FetchResult (α : Type) where
  | requestError (cause : String)
  | parseError (cause : String)
  | decoded (value : α)
deriving Repr, DecidableEq

/-- `Client.QueryMessage` (`witai.go` lines 133–166), from the HTTP
exchange on: a transport failure becomes `message request error: <cause>`,
a decode failure `message parse error: <cause>`, and a decoded `Message`
either passes `HasError` and is returned, or is turned into
`message response error: <ErrorMessage>`. -/
def queryMessage (fetched : FetchResult Message) : Except String Message :=
  match fetched with
  | .requestError cause => .error ("message request error: " ++ cause)
  | .parseError cause => .error ("message parse error: " ++ cause)
  | .decoded m =>
      if m.toResponseError.HasError then
        .error ("message response error: " ++ m.toResponseError.ErrorMessage)
      else
        .ok m

/-- `Client.GetAllEntities` (`witai.go` lines 273–289), from the HTTP
exchange on: the decoded value is a bare `[]string`, so there is no
error-normalization phase; only the transport and parse phases can fail. -/
def getAllEntities (fetched : FetchResult (List String)) : Except String (List String) :=
  match fetched with
  | .requestError cause => .error ("get all entities request error: " ++ cause)
  | .parseError cause => .error ("get all entities parse error: " ++ cause)
  | .decoded xs => .ok xs

/-- Two string concatenations differ when their left parts differ at an
index that both left parts cover. -/
theorem append_ne_at (p q e f : String) (i : Nat) (hp : i < p.data.length)
    (hq : i < q.data.length) (hne : p.data[i]? ≠ q.data[i]?) : p ++ e ≠ q ++ f := by
  intro h
  have hd : p.data ++ e.data = q.data ++ f.data := by
    have := congrArg String.data h
    simpa [String.data_append] using this
  have hget : (p.data ++ e.data)[i]? = (q.data ++ f.data)[i]? := by rw [hd]
  rw [List.getElem?_append_left hp, List.getElem?_append_left hq] at hget
  exact hne hget

/-- C4: transport, decode and domain failures of an operation are surfaced
as distinct labeled errors — `<operation> request error`,
`<operation> parse error`, `<operation> response error` — each carrying
the underlying cause, and a domain error is never returned as a success;
shown for `QueryMessage` (all three phases) and `GetAllEntities` (whose
decoded `[]string` carries no error indicators, so only the first two
phases exist). -/
theorem endpoint_phase_errors (e f : String) (m : Message) (xs : List String)
    (hm : m.toResponseError.HasError = true) :
    queryMessage (.requestError e) = .error ("message request error: " ++ e) ∧
    queryMessage (.parseError f) = .error ("message parse error: " ++ f) ∧
    queryMessage (.decoded m)
      = .error ("message response error: " ++ m.toResponseError.ErrorMessage) ∧
    (∀ m₂, queryMessage (.decoded m) ≠ Except.ok m₂) ∧
    queryMessage (.requestError e) ≠ queryMessage (.parseError f) ∧
    queryMessage (.requestError e) ≠ queryMessage (.decoded m) ∧
    queryMessage (.parseError f) ≠ queryMessage (.decoded m) ∧
    getAllEntities (.requestError e) = .error ("get all entities request error: " ++ e) ∧
    getAllEntities (.parseError f) = .error ("get all entities parse error: " ++ f) ∧
    getAllEntities (.decoded xs) = .ok xs ∧
    getAllEntities (.requestError e) ≠ getAllEntities (.parseError f) := by
  refine ⟨rfl, rfl, by simp [queryMessage, hm], ?_, ?_, ?_, ?_, rfl, rfl, rfl, ?_⟩
  · intro m₂
    simp [queryMessage, hm]
  · simp only [queryMessage, ne_eq, Except.error.injEq]
    exact append_ne_at "message request error: " "message parse error: " e f 8
      (by decide) (by decide) (by decide)
  · simp only [queryMessage, hm, if_true, ne_eq, Except.error.injEq, reduceIte]
    exact append_ne_at "message request error: " "message response error: " e
      m.toResponseError.ErrorMessage 10 (by decide) (by decide) (by decide)
  · simp only [queryMessage, hm, if_true, ne_eq, Except.error.injEq, reduceIte]
    exact append_ne_at "message parse error: " "message response error: " f
      m.toResponseError.ErrorMessage 8 (by decide) (by decide) (by decide)
  · simp only [getAllEntities, ne_eq, Except.error.injEq]
    exact append_ne_at "get all entities request error: " "get all entities parse error: "
      e f 17 (by decide) (by decide) (by decide)

/-- C4 witness: the domain-failure phase at a concrete decoded response
carrying a remote error message. -/
theorem endpoint_phase_errors_witness :
    queryMessage (FetchResult.decoded ⟨⟨some "bad token", none, [], none⟩, none, none, []⟩)
      = Except.error ("message response error: "
          ++ (ResponseError.ErrorMessage ⟨some "bad token", none, [], none⟩)) :=
  (endpoint_phase_errors "e" "f" ⟨⟨some "bad token", none, [], none⟩, none, none, []⟩ []
    (by decide)).2.2.1

/-- One value of an entity (`types.go`, `EntityValue`): trigger
expressions and an optional canonical string. -/
structure EntityValue where
  expressions : List String
  value : Option String
deriving Repr, DecidableEq

/-- A value stored in the `map[string]interface{}` of GET parameters:
the operations of `witai.go` put strings, ints, or a caller-supplied
context object (kept opaque) into it. -/
inductive ParamValue where
  | str (s : String)
  | int (n : Int)
deriving Repr, DecidableEq

/-- A value stored in the `map[string]interface{}` of a JSON request body
(`doc`/`metadata`/`value` strings, an `[]string` expression list, or an
`[]EntityValue` list). -/
inductive BodyValue where
  | str (s : String)
  | strList (xs : List String)
  | entityValues (vs : List EntityValue)
deriving Repr, DecidableEq

/-- Parameter map built by `Client.QueryMessage` (`witai.go` lines
134–145): always `q`; `context` only when the caller passed a non-nil
context, `msg_id`/`thread_id` only when non-empty.  The Go map is modeled
as the list of its entries. -/
def queryMessageParams (query : String) (context : Option ParamValue)
    (messageId threadId : String) : List (String × ParamValue) :=
  let params := [("q", ParamValue.str query)]
  let params := match context with
    | some c => params ++ [("context", c)]
    | none => params
  let params := if messageId.length > 0 then params ++ [("msg_id", ParamValue.str messageId)]
    else params
  let params := if threadId.length > 0 then params ++ [("thread_id", ParamValue.str threadId)]
    else params
  params

/-- Parameter map built by `Client.QuerySpeechMp3` (`witai.go` lines
172–185): optional `context`/`msg_id`/`thread_id` as in `QueryMessage`,
then `n` is clamped to 1 when non-positive and always inserted. -/
def querySpeechMp3Params (context : Option ParamValue) (messageId threadId : String)
    (n : Int) : List (String × ParamValue) :=
  let params : List (String × ParamValue) := []
  let params := match context with
    | some c => params ++ [("context", c)]
    | none => params
  let params := if messageId.length > 0 then params ++ [("msg_id", ParamValue.str messageId)]
    else params
  let params := if threadId.length > 0 then params ++ [("thread_id", ParamValue.str threadId)]
    else params
  let n := if n ≤ 0 then 1 else n
  params ++ [("n", ParamValue.int n)]

/-- JSON body built by `Client.UpdateEntity` (`witai.go` lines 357–363):
`doc` only when the caller passed a non-nil doc, `values` only when at
least one value was supplied. -/
def updateEntityBody (doc : Option String) (values : List EntityValue) :
    List (String × BodyValue) :=
  let body : List (String × BodyValue) := []
  let body := match doc with
    | some d => body ++ [("doc", BodyValue.str d)]
    | none => body
  let body := if values.length > 0 then body ++ [("values", BodyValue.entityValues values)]
    else body
  body

/-- JSON body built by `Client.CreateEntityValue` (`witai.go` lines
411–419): always `value`; `expressions` only when at least one expression
was supplied, `metadata` only when the caller passed a non-nil metadata. -/
def createEntityValueBody (value : String) (expressions : List String)
    (metadata : Option String) : List (String × BodyValue) :=
  let body := [("value", BodyValue.str value)]
  let body := if expressions.length > 0 then body ++ [("expressions", BodyValue.strList expressions)]
    else body
  let body := match metadata with
    | some m => body ++ [("metadata", BodyValue.str m)]
    | none => body
  body

/-- C5 counterexample: with the count left unset (the Go zero value 0) and
every other optional parameter unset, the query map built by
`QuerySpeechMp3` still contains the key `n` (defaulted to 1), refuting the
claim that an unset count never appears as a key. -/
theorem unset_count_key_appears_cex :
    "n" ∈ (querySpeechMp3Params none "" "" 0).map Prod.fst ∧
    querySpeechMp3Params none "" "" 0 = [("n", ParamValue.int 1)] := by
  constructor
  · decide
  · rfl

/-- C5 (amended): an unset optional context, message id, thread id, doc,
metadata or values never appears as a key in the built query map or JSON
body; the count parameter of `QuerySpeechMp3`, however, always appears,
defaulted to 1 when the caller passes a non-positive value. -/
theorem unset_optional_params_omitted (q : String) (n : Int) (c : Option ParamValue)
    (mid tid : String) (d : Option String) (vs : List EntityValue)
    (v : String) (exprs : List String) :
    "context" ∉ (queryMessageParams q none mid tid).map Prod.fst ∧
    "msg_id" ∉ (queryMessageParams q c "" tid).map Prod.fst ∧
    "thread_id" ∉ (queryMessageParams q c mid "").map Prod.fst ∧
    "context" ∉ (querySpeechMp3Params none mid tid n).map Prod.fst ∧
    "msg_id" ∉ (querySpeechMp3Params c "" tid n).map Prod.fst ∧
    "thread_id" ∉ (querySpeechMp3Params c mid "" n).map Prod.fst ∧
    "doc" ∉ (updateEntityBody none vs).map Prod.fst ∧
    "values" ∉ (updateEntityBody d []).map Prod.fst ∧
    "metadata" ∉ (createEntityValueBody v exprs none).map Prod.fst ∧
    ("n", ParamValue.int (if n ≤ 0 then 1 else n)) ∈ querySpeechMp3Params c mid tid n := by
  refine ⟨?_, ?_, ?_, ?_, ?_, ?_, ?_, ?_, ?_, ?_⟩
  · simp only [queryMessageParams]
    split <;> split <;> simp
  · simp only [queryMessageParams]
    cases c <;> simp <;> split <;> simp
  · simp only [queryMessageParams]
    cases c <;> simp <;> split <;> simp
  · simp only [querySpeechMp3Params]
    split <;> split <;> simp
  · simp only [querySpeechMp3Params]
    cases c <;> simp <;> split <;> simp
  · simp only [querySpeechMp3Params]
    cases c <;> simp <;> split <;> simp
  · simp only [updateEntityBody]
    split <;> simp
  · cases d <;> simp [updateEntityBody]
  · simp only [createEntityValueBody]
    split <;> simp
  · simp only [querySpeechMp3Params]
    cases c <;> simp

/-- `Client.ConverseFirst` (`witai.go` lines 211–241), from the HTTP
exchange on: the same three-phase pipeline as the other operations, with
labels `converse request error` / `converse parse error` /
`converse response error`.  `Client.ConverseNext` (lines 243–245) just
calls `ConverseFirst` with an empty query, so one scripted exchange result
per call drives both. -/
def converseStep (fetched : FetchResult Converse) : Except String Converse :=
  match fetched with
  | .requestError cause => .error ("converse request error: " ++ cause)
  | .parseError cause => .error ("converse parse error: " ++ cause)
  | .decoded c =>
      if c.toResponseError.HasError then
        .error ("converse response error: " ++ c.toResponseError.ErrorMessage)
      else
        .ok c

/-- Result of running `Client.ConverseAll` against a finite transport
script: the collected turns, the error the Go code returns together with a
nil slice, the undefined behaviour of dereferencing a nil `Type` pointer,
or falling off the end of the script (the Go loop would issue one more
real HTTP call). -/
inductive RunOutcome where
  | ok (turns : List Converse)
  | err (cause : String)
  | nilTypeDeref
  | outOfScript
deriving Repr, DecidableEq

/-- The `for` loop of `Client.ConverseAll` (`witai.go` lines 251–262):
each iteration performs one `ConverseNext`, appends the turn on success,
then dereferences `*result.Type` — undefined when the decoded turn has a
nil `Type` — and stops when it equals `"stop"`. -/
def converseAllLoop : List (FetchResult Converse) → List Converse → RunOutcome
  | [], _ => .outOfScript
  | fetched :: rest, acc =>
      match converseStep fetched with
      | .error e => .err e
      | .ok turn =>
          let acc := acc ++ [turn]
          match turn.type with
          | none => .nilTypeDeref
          | some ty => if ty ≠ "stop" then converseAllLoop rest acc else .ok acc

/-- `Client.ConverseAll` (`witai.go` lines 247–268): one `ConverseFirst`
(whose turn is appended without any inspection of its `Type`), then the
`ConverseNext` loop. -/
def converseAll : List (FetchResult Converse) → RunOutcome
  | [] => .outOfScript
  | fetched :: rest =>
      match converseStep fetched with
      | .error e => .err e
      | .ok first => converseAllLoop rest [first]

theorem converseAllLoop_ok_last_stop (rest : List (FetchResult Converse))
    (acc l : List Converse) (h : converseAllLoop rest acc = RunOutcome.ok l) :
    l ≠ [] ∧ l.getLast?.map Converse.type = some (some "stop") := by
  induction rest generalizing acc with
  | nil => simp [converseAllLoop] at h
  | cons fetched rest ih =>
      rw [converseAllLoop] at h
      cases hs : converseStep fetched with
      | error e => rw [hs] at h; simp at h
      | ok turn =>
          rw [hs] at h
          simp only at h
          cases ht : turn.type with
          | none => rw [ht] at h; simp at h
          | some ty =>
              rw [ht] at h
              simp only at h
              by_cases hty : ty = "stop"
              · rw [if_neg (by simpa using hty)] at h
                have hl : l = acc ++ [turn] := by
                  cases h
                  rfl
                subst hl
                subst hty
                refine ⟨by simp, ?_⟩
                rw [List.getLast?_concat]
                simp [ht]
              · rw [if_pos (by simpa using hty)] at h
                exact ih _ h

/-- C6: whenever `ConverseAll` returns successfully against a transport
script, the collected turn sequence is non-empty and its final turn has
type `stop`; and against the scripted transport whose first converse
response has type `msg` and whose second has type `stop`, `ConverseAll`
returns exactly those two turns in order — a sequence of length 2 — with
no error. -/
theorem converseAll_terminates_with_stop (script : List (FetchResult Converse))
    (l : List Converse) (h : converseAll script = RunOutcome.ok l) :
    (l ≠ [] ∧ l.getLast?.map Converse.type = some (some "stop")) ∧
    converseAll
        [FetchResult.decoded ⟨⟨none, none, [], none⟩, some "msg", some "hello", none, [], 0⟩,
         FetchResult.decoded ⟨⟨none, none, [], none⟩, some "stop", none, none, [], 0⟩]
      = RunOutcome.ok
          [⟨⟨none, none, [], none⟩, some "msg", some "hello", none, [], 0⟩,
           ⟨⟨none, none, [], none⟩, some "stop", none, none, [], 0⟩] ∧
    ([⟨⟨none, none, [], none⟩, some "msg", some "hello", none, [], 0⟩,
      (⟨⟨none, none, [], none⟩, some "stop", none, none, [], 0⟩ : Converse)]).length = 2 := by
  refine ⟨?_, by rfl, rfl⟩
  cases script with
  | nil => simp [converseAll] at h
  | cons fetched rest =>
      rw [converseAll] at h
      cases hs : converseStep fetched with
      | error e => rw [hs] at h; simp at h
      | ok first =>
          rw [hs] at h
          exact converseAllLoop_ok_last_stop rest [first] l h

/-- C6 witness: the two-turn script itself discharges the success
hypothesis. -/
theorem converseAll_terminates_with_stop_witness :
    ([⟨⟨none, none, [], none⟩, some "msg", some "hello", none, [], 0⟩,
      (⟨⟨none, none, [], none⟩, some "stop", none, none, [], 0⟩ : Converse)] ≠ [] ∧
     ([⟨⟨none, none, [], none⟩, some "msg", some "hello", none, [], 0⟩,
       (⟨⟨none, none, [], none⟩, some "stop", none, none, [], 0⟩ : Converse)]).getLast?.map
        Converse.type = some (some "stop")) ∧
    converseAll
        [FetchResult.decoded ⟨⟨none, none, [], none⟩, some "msg", some "hello", none, [], 0⟩,
         FetchResult.decoded ⟨⟨none, none, [], none⟩, some "stop", none, none, [], 0⟩]
      = RunOutcome.ok
          [⟨⟨none, none, [], none⟩, some "msg", some "hello", none, [], 0⟩,
           ⟨⟨none, none, [], none⟩, some "stop", none, none, [], 0⟩] ∧
    ([⟨⟨none, none, [], none⟩, some "msg", some "hello", none, [], 0⟩,
      (⟨⟨none, none, [], none⟩, some "stop", none, none, [], 0⟩ : Converse)]).length = 2 :=
  converseAll_terminates_with_stop
    [FetchResult.decoded ⟨⟨none, none, [], none⟩, some "msg", some "hello", none, [], 0⟩,
     FetchResult.decoded ⟨⟨none, none, [], none⟩, some "stop", none, none, [], 0⟩]
    [⟨⟨none, none, [], none⟩, some "msg", some "hello", none, [], 0⟩,
     ⟨⟨none, none, [], none⟩, some "stop", none, none, [], 0⟩] (by rfl)

theorem converseAllLoop_no_nilDeref (rest : List (FetchResult Converse)) (acc : List Converse)
    (h : ∀ f ∈ rest, ∀ t, converseStep f = Except.ok t → t.type ≠ none) :
    converseAllLoop rest acc ≠ RunOutcome.nilTypeDeref := by
  induction rest generalizing acc with
  | nil => simp [converseAllLoop]
  | cons fetched rest ih =>
      rw [converseAllLoop]
      cases hs : converseStep fetched with
      | error e => simp
      | ok turn =>
          simp only
          cases ht : turn.type with
          | none =>
              exact absurd ht (h fetched (List.mem_cons_self fetched rest) turn hs)
          | some ty =>
              simp only
              split
              · exact ih _ (fun f hf t hft => h f (List.mem_cons_of_mem fetched hf) t hft)
              · simp

/-- C10: the `ConverseAll` loop dereferences `*result.Type` on every
successful turn after the first without a presence check.  When every
successfully decoded turn of the loop script has a non-absent `Type`, the
undefined-dereference branch is unreachable; it is reached as soon as a
post-first turn decodes without error but lacks the `type` key, while an
absent `Type` on the *first* turn (which `ConverseAll` never inspects) is
harmless. -/
theorem converseAll_nilTypeDeref_guard (first : FetchResult Converse)
    (rest : List (FetchResult Converse))
    (h : ∀ f ∈ rest, ∀ t, converseStep f = Except.ok t → t.type ≠ none) :
    converseAll (first :: rest) ≠ RunOutcome.nilTypeDeref ∧
    converseAll
        [FetchResult.decoded ⟨⟨none, none, [], none⟩, some "action", none, some "fetch", [], 0⟩,
         FetchResult.decoded ⟨⟨none, none, [], none⟩, none, some "untyped", none, [], 0⟩]
      = RunOutcome.nilTypeDeref ∧
    converseAll
        [FetchResult.decoded ⟨⟨none, none, [], none⟩, none, some "untyped", none, [], 0⟩,
         FetchResult.decoded ⟨⟨none, none, [], none⟩, some "stop", none, some "done", [], 0⟩]
      = RunOutcome.ok
          [⟨⟨none, none, [], none⟩, none, some "untyped", none, [], 0⟩,
           ⟨⟨none, none, [], none⟩, some "stop", none, some "done", [], 0⟩] := by
  refine ⟨?_, by rfl, by rfl⟩
  rw [converseAll]
  cases hs : converseStep first with
  | error e => simp
  | ok t =>
      simp only
      exact converseAllLoop_no_nilDeref rest [t] h

/-- C10 witness: an empty loop script discharges the all-turns-typed
hypothesis vacuously. -/
theorem converseAll_nilTypeDeref_guard_witness :
    converseAll [FetchResult.requestError "connection refused"] ≠ RunOutcome.nilTypeDeref ∧
    converseAll
        [FetchResult.decoded ⟨⟨none, none, [], none⟩, some "action", none, some "fetch", [], 0⟩,
         FetchResult.decoded ⟨⟨none, none, [], none⟩, none, some "untyped", none, [], 0⟩]
      = RunOutcome.nilTypeDeref ∧
    converseAll
        [FetchResult.decoded ⟨⟨none, none, [], none⟩, none, some "untyped", none, [], 0⟩,
         FetchResult.decoded ⟨⟨none, none, [], none⟩, some "stop", none, some "done", [], 0⟩]
      = RunOutcome.ok
          [⟨⟨none, none, [], none⟩, none, some "untyped", none, [], 0⟩,
           ⟨⟨none, none, [], none⟩, some "stop", none, some "done", [], 0⟩] :=
  converseAll_nilTypeDeref_guard (FetchResult.requestError "connection refused") []
    (fun f hf => absurd hf (List.not_mem_nil f))

/-- Uppercase hexadecimal digits used by percent-encoding. -/
def hexUpperDigits : List Char :=
  ['0', '1', '2', '3', '4', '5', '6', '7', '8', '9', 'A', 'B', 'C', 'D', 'E', 'F']

/-- Two-digit uppercase hex rendering of a byte. -/
def byteHex (b : Nat) : String :=
  String.mk [hexUpperDigits.getD (b / 16 % 16) '0', hexUpperDigits.getD (b % 16) '0']

/-- Percent-encoding of one byte under Go `url.QueryEscape`: alphanumeric
bytes and `-` `_` `.` `~` stay as themselves, a space becomes `+`, every
other byte becomes `%XX`. -/
def escapeByte (b : Nat) : String :=
  if (0x30 ≤ b ∧ b ≤ 0x39) ∨ (0x41 ≤ b ∧ b ≤ 0x5A) ∨ (0x61 ≤ b ∧ b ≤ 0x7A)
      ∨ b = 0x2D ∨ b = 0x5F ∨ b = 0x2E ∨ b = 0x7E then
    String.mk [Char.ofNat b]
  else if b = 0x20 then "+"
  else "%" ++ byteHex b

/-- UTF-8 byte sequence of a code point (Go strings are UTF-8, and
`url.QueryEscape` works byte by byte). -/
def utf8Bytes (n : Nat) : List Nat :=
  if n < 0x80 then [n]
  else if n < 0x800 then [0xC0 + n / 0x40, 0x80 + n % 0x40]
  else if n < 0x10000 then
    [0xE0 + n / 0x1000, 0x80 + n / 0x40 % 0x40, 0x80 + n % 0x40]
  else
    [0xF0 + n / 0x40000, 0x80 + n / 0x1000 % 0x40, 0x80 + n / 0x40 % 0x40, 0x80 + n % 0x40]

/-- Go `url.QueryEscape`: percent-encode every byte of the UTF-8 form. -/
def queryEscape (s : String) : String :=
  String.join (s.data.map (fun c => String.join ((utf8Bytes c.toNat).map escapeByte)))

/-- Go `fmt.Sprintf("%v", v)` on the values the client stores in its
parameter maps: a string prints as itself, an int in decimal. -/
def goStringV : ParamValue → String
  | .str s => s
  | .int n => toString n

/-- One query-string segment, `fmt.Sprintf("%s=%s", k,
url.QueryEscape(fmt.Sprintf("%v", v)))` (`witai.go` line 118). -/
def querySegment (kv : String × ParamValue) : String :=
  kv.1 ++ "=" ++ queryEscape (goStringV kv.2)

/-- `Client.makeUrl` (`witai.go` lines 114–128): build one segment per map
entry (the map is modeled as the list of its entries in iteration order)
and append `?`-plus-`&`-joined segments only when the map is non-empty. -/
def makeUrl (baseUrl : String) (params : List (String × ParamValue)) : String :=
  let queries := params.map querySegment
  if params.length > 0 then baseUrl ++ "?" ++ String.intercalate "&" queries
  else baseUrl

/-- The oldest `Client.makeUrl` variant (`witai.go` lines 1144–1154):
identical segment construction, but `baseUrl + "?" + strings.Join(...)`
is built unconditionally, also for an empty map. -/
def makeUrlOldest (baseUrl : String) (params : List (String × ParamValue)) : String :=
  let queries := params.map querySegment
  baseUrl ++ "?" ++ String.intercalate "&" queries

/-- C7 counterexample: on an empty parameter map the oldest URL-builder
variant still appends `?`, so it does not return the base URL unchanged. -/
theorem makeUrlOldest_empty_cex :
    makeUrlOldest "https://api.wit.ai/intents" [] = "https://api.wit.ai/intents?" ∧
    "https://api.wit.ai/intents?" ≠ "https://api.wit.ai/intents" := by
  exact ⟨rfl, by decide⟩

/-- C7 (amended): the current `makeUrl` returns the base URL unchanged on
an empty map and otherwise appends exactly one `?` followed by `key=value`
segments joined with `&`, each value stringified and then
percent-encoded; the oldest variant produces the same `?`-plus-segments
shape but appends the `?` even when the map is empty. -/
theorem makeUrl_query_format (b : String) (ps : List (String × ParamValue))
    (h : ps ≠ []) :
    makeUrl b [] = b ∧
    makeUrl b ps = b ++ "?" ++ String.intercalate "&" (ps.map querySegment) ∧
    makeUrlOldest b ps = b ++ "?" ++ String.intercalate "&" (ps.map querySegment) ∧
    (∀ k v, querySegment (k, v) = k ++ "=" ++ queryEscape (goStringV v)) := by
  refine ⟨rfl, ?_, rfl, fun k v => rfl⟩
  unfold makeUrl
  rw [if_pos]
  exact List.length_pos.mpr h

/-- C7 witness: the format at a concrete one-entry map. -/
theorem makeUrl_query_format_witness :
    makeUrl "https://api.wit.ai/message" [] = "https://api.wit.ai/message" ∧
    makeUrl "https://api.wit.ai/message" [("q", ParamValue.str "weather today")]
      = "https://api.wit.ai/message" ++ "?" ++ String.intercalate "&"
          ([("q", ParamValue.str "weather today")].map querySegment) ∧
    makeUrlOldest "https://api.wit.ai/message" [("q", ParamValue.str "weather today")]
      = "https://api.wit.ai/message" ++ "?" ++ String.intercalate "&"
          ([("q", ParamValue.str "weather today")].map querySegment) ∧
    (∀ k v, querySegment (k, v) = k ++ "=" ++ queryEscape (goStringV v)) :=
  makeUrl_query_format "https://api.wit.ai/message" [("q", ParamValue.str "weather today")]
    (List.cons_ne_nil _ _)

/-- C8 counterexample: the same two-entry parameter map handed to
`makeUrl` in its two possible iteration orders (Go does not fix a map
iteration order, and the code does not sort keys) yields two different URL
strings, refuting character-for-character reproducibility. -/
theorem makeUrl_order_cex :
    List.Perm [("msg_id", ParamValue.str "1"), ("q", ParamValue.str "hi")]
      [("q", ParamValue.str "hi"), ("msg_id", ParamValue.str "1")] ∧
    ([("msg_id", ParamValue.str "1"), ("q", ParamValue.str "hi")] :
      List (String × ParamValue)).length = 2 ∧
    makeUrl "https://api.wit.ai/message"
        [("msg_id", ParamValue.str "1"), ("q", ParamValue.str "hi")]
      ≠ makeUrl "https://api.wit.ai/message"
        [("q", ParamValue.str "hi"), ("msg_id", ParamValue.str "1")] := by
  refine ⟨?_, rfl, by decide⟩
  exact List.Perm.swap _ _ _

/-- C8 (amended): `makeUrl` is deterministic only relative to the map
iteration order it is handed: for identical entry sequences the outputs
are equal, and for two iteration orders of the same map (permutations of
the same entries) the produced query segments agree as multisets, but the
code does not sort keys, so the exact character sequence is not
reproducible across calls. -/
theorem makeUrl_perm_segments (b : String) (ps₁ ps₂ : List (String × ParamValue))
    (h : List.Perm ps₁ ps₂) :
    List.Perm (ps₁.map querySegment) (ps₂.map querySegment) ∧
    (ps₁ = [] ↔ ps₂ = []) ∧
    (ps₁ = ps₂ → makeUrl b ps₁ = makeUrl b ps₂) := by
  refine ⟨h.map querySegment, ?_, fun he => by rw [he]⟩
  constructor
  · intro h1
    subst h1
    exact h.symm.eq_nil
  · intro h2
    subst h2
    exact h.eq_nil

/-- C8 witness: the permutation property at the concrete two-entry map. -/
theorem makeUrl_perm_segments_witness :
    List.Perm ([("msg_id", ParamValue.str "1"), ("q", ParamValue.str "hi")].map querySegment)
      ([("q", ParamValue.str "hi"), ("msg_id", ParamValue.str "1")].map querySegment) ∧
    (([("msg_id", ParamValue.str "1"), ("q", ParamValue.str "hi")] :
        List (String × ParamValue)) = []
      ↔ ([("q", ParamValue.str "hi"), ("msg_id", ParamValue.str "1")] :
        List (String × ParamValue)) = []) ∧
    (([("msg_id", ParamValue.str "1"), ("q", ParamValue.str "hi")] :
        List (String × ParamValue))
        = [("q", ParamValue.str "hi"), ("msg_id", ParamValue.str "1")] →
      makeUrl "https://api.wit.ai/message"
          [("msg_id", ParamValue.str "1"), ("q", ParamValue.str "hi")]
        = makeUrl "https://api.wit.ai/message"
          [("q", ParamValue.str "hi"), ("msg_id", ParamValue.str "1")]) :=
  makeUrl_perm_segments "https://api.wit.ai/message"
    [("msg_id", ParamValue.str "1"), ("q", ParamValue.str "hi")]
    [("q", ParamValue.str "hi"), ("msg_id", ParamValue.str "1")]
    (List.Perm.swap _ _ _)

/-- A named slot type (`types.go`, `Entity`): embeds `ResponseError`,
optional `id`/`name`/`doc`/`lang` (json tags without `omitempty`), the
three boolean flags and the value list. -/
structure Entity extends ResponseError where
  id : Option String
  name : Option String
  doc : Option String
  lang : Option String
  closed : Bool
  exotic : Bool
  builtin : Bool
  values : List EntityValue
deriving Repr, DecidableEq

/-- JSON documents, the meaning of the bytes exchanged with
`encoding/json`. -/
inductive Json where
  | null
  | str (s : String)
  | num (n : Int)
  | bool (b : Bool)
  | arr (elems : List Json)
  | obj (fields : List (String × Json))

/-- Marshaling of a `*string` field without `omitempty`: a nil pointer
becomes JSON `null`, a set pointer the pointed-to string. -/
def optStrJson : Option String → Json
  | some s => .str s
  | none => .null

/-- Marshaling of a `*string` field with `omitempty`: a nil pointer emits
no key at all. -/
def optFieldStr (k : String) : Option String → List (String × Json)
  | some s => [(k, Json.str s)]
  | none => []

/-- `json.Marshal` on `EntityValue` (fields in declaration order:
`expressions`, `value`). -/
def entityValueToJson (v : EntityValue) : Json :=
  Json.obj [("expressions", Json.arr (v.expressions.map Json.str)),
            ("value", optStrJson v.value)]

/-- `json.Marshal` on `Entity`: the embedded `ResponseError` fields come
first, all with `omitempty` (an empty `errors` slice is omitted like a nil
pointer), then the remaining fields in declaration order. -/
def entityToJson (e : Entity) : Json :=
  Json.obj (optFieldStr "error" e.error ++ optFieldStr "code" e.code
    ++ (if e.errors.length > 0 then [("errors", Json.arr (e.errors.map Json.str))] else [])
    ++ optFieldStr "body" e.body
    ++ [("id", optStrJson e.id), ("name", optStrJson e.name), ("doc", optStrJson e.doc),
        ("lang", optStrJson e.lang), ("closed", Json.bool e.closed),
        ("exotic", Json.bool e.exotic), ("builtin", Json.bool e.builtin),
        ("values", Json.arr (e.values.map entityValueToJson))])

/-- Key lookup inside a decoded JSON object, as `json.Unmarshal` matches
object keys to struct fields. -/
def lookupField (fields : List (String × Json)) (k : String) : Option Json :=
  (fields.find? (fun kv => kv.1 == k)).map Prod.snd

/-- `json.Unmarshal` into a `*string` field: a missing key or JSON `null`
leaves the pointer nil, a string sets it, anything else is a type
mismatch error. -/
def getOptString (fields : List (String × Json)) (k : String) : Except String (Option String) :=
  match lookupField fields k with
  | none => .ok none
  | some Json.null => .ok none
  | some (Json.str s) => .ok (some s)
  | some _ => .error ("cannot unmarshal value of key " ++ k ++ " into string pointer")

/-- `json.Unmarshal` into a `bool` field: missing key or `null` leaves the
zero value `false`. -/
def getBool (fields : List (String × Json)) (k : String) : Except String Bool :=
  match lookupField fields k with
  | none => .ok false
  | some Json.null => .ok false
  | some (Json.bool b) => .ok b
  | some _ => .error ("cannot unmarshal value of key " ++ k ++ " into bool")

/-- `json.Unmarshal` of a JSON array into `[]string`, element by
element. -/
def decodeStringList : List Json → Except String (List String)
  | [] => .ok []
  | Json.str s :: rest =>
      match decodeStringList rest with
      | .ok xs => .ok (s :: xs)
      | .error e => .error e
  | _ :: _ => .error "cannot unmarshal array element into string"

/-- `json.Unmarshal` into a `[]string` field: missing key or `null` leaves
the nil slice. -/
def getStringList (fields : List (String × Json)) (k : String) : Except String (List String) :=
  match lookupField fields k with
  | none => .ok []
  | some Json.null => .ok []
  | some (Json.arr xs) => decodeStringList xs
  | some _ => .error ("cannot unmarshal value of key " ++ k ++ " into string slice")

/-- `json.Unmarshal` into one `EntityValue`. -/
def entityValueFromJson : Json → Except String EntityValue
  | Json.obj fields =>
      match getStringList fields "expressions", getOptString fields "value" with
      | .ok exprs, .ok v => .ok ⟨exprs, v⟩
      | .error e, _ => .error e
      | _, .error e => .error e
  | _ => .error "cannot unmarshal into EntityValue"

/-- `json.Unmarshal` of a JSON array into `[]EntityValue`. -/
def decodeEntityValues : List Json → Except String (List EntityValue)
  | [] => .ok []
  | j :: rest =>
      match entityValueFromJson j, decodeEntityValues rest with
      | .ok v, .ok vs => .ok (v :: vs)
      | .error e, _ => .error e
      | _, .error e => .error e

/-- `json.Unmarshal` into a `[]EntityValue` field. -/
def getEntityValues (fields : List (String × Json)) (k : String) :
    Except String (List EntityValue) :=
  match lookupField fields k with
  | none => .ok []
  | some Json.null => .ok []
  | some (Json.arr xs) => decodeEntityValues xs
  | some _ => .error ("cannot unmarshal value of key " ++ k ++ " into value slice")

/-- `json.Unmarshal` into `Entity`: each field is matched by its json key;
missing keys leave the zero value. -/
def entityFromJson : Json → Except String Entity
  | Json.obj fields => do
      let err ← getOptString fields "error"
      let code ← getOptString fields "code"
      let errs ← getStringList fields "errors"
      let body ← getOptString fields "body"
      let id ← getOptString fields "id"
      let name ← getOptString fields "name"
      let doc ← getOptString fields "doc"
      let lang ← getOptString fields "lang"
      let closed ← getBool fields "closed"
      let exotic ← getBool fields "exotic"
      let builtin ← getBool fields "builtin"
      let values ← getEntityValues fields "values"
      return ⟨⟨err, code, errs, body⟩, id, name, doc, lang, closed, exotic, builtin, values⟩
  | _ => .error "cannot unmarshal into Entity"

theorem decodeStringList_map_str (xs : List String) :
    decodeStringList (xs.map Json.str) = Except.ok xs := by
  induction xs with
  | nil => rfl
  | cons x xs ih => simp [decodeStringList, ih]

theorem entityValueFromJson_roundtrip (v : EntityValue) :
    entityValueFromJson (entityValueToJson v) = Except.ok v := by
  obtain ⟨exprs, val⟩ := v
  cases val <;>
    simp [entityValueToJson, entityValueFromJson, getStringList, getOptString,
      lookupField, optStrJson, decodeStringList_map_str]

theorem decodeEntityValues_roundtrip (vs : List EntityValue) :
    decodeEntityValues (vs.map entityValueToJson) = Except.ok vs := by
  induction vs with
  | nil => rfl
  | cons v vs ih => simp [decodeEntityValues, entityValueFromJson_roundtrip, ih]

theorem lookupField_nil (k : String) : lookupField [] k = none := rfl

theorem lookupField_cons (kv : String × Json) (rest : List (String × Json)) (k : String) :
    lookupField (kv :: rest) k = if kv.1 == k then some kv.2 else lookupField rest k := by
  cases h : kv.1 == k with
  | true =>
      unfold lookupField
      rw [List.find?_cons_of_pos _ (by simpa using h)]
      simp [h]
  | false =>
      unfold lookupField
      rw [List.find?_cons_of_neg _ (by simpa using h)]
      simp [h]

theorem lookupField_append (l₁ l₂ : List (String × Json)) (k : String) :
    lookupField (l₁ ++ l₂) k = (lookupField l₁ k).or (lookupField l₂ k) := by
  unfold lookupField
  rw [List.find?_append]
  cases List.find? (fun kv => kv.1 == k) l₁ <;> simp

theorem lookupField_optFieldStr_self (k : String) (o : Option String) :
    lookupField (optFieldStr k o) k = o.map Json.str := by
  cases o <;> simp [optFieldStr, lookupField_nil, lookupField_cons]

theorem lookupField_optFieldStr_ne (q k : String) (o : Option String)
    (h : (q == k) = false) : lookupField (optFieldStr q o) k = none := by
  cases o <;> simp [optFieldStr, lookupField_nil, lookupField_cons, h]

theorem lookupField_errsField_self (errs : List String) :
    lookupField
        (if errs.length > 0 then [("errors", Json.arr (errs.map Json.str))] else []) "errors"
      = if errs.length > 0 then some (Json.arr (errs.map Json.str)) else none := by
  split <;> simp [lookupField_nil, lookupField_cons]

theorem lookupField_errsField_ne (k : String) (errs : List String)
    (h : ("errors" == k) = false) :
    lookupField
        (if errs.length > 0 then [("errors", Json.arr (errs.map Json.str))] else []) k
      = none := by
  split <;> simp [lookupField_nil, lookupField_cons, h]

theorem getOptString_of_lookup_map (fields : List (String × Json)) (k : String)
    (o : Option String) (h : lookupField fields k = Option.map Json.str o) :
    getOptString fields k = Except.ok o := by
  cases o <;> simp [getOptString, h]

theorem getOptString_of_lookup_opt (fields : List (String × Json)) (k : String)
    (o : Option String) (h : lookupField fields k = some (optStrJson o)) :
    getOptString fields k = Except.ok o := by
  cases o <;> simp [getOptString, h, optStrJson]

theorem getBool_of_lookup (fields : List (String × Json)) (k : String) (b : Bool)
    (h : lookupField fields k = some (Json.bool b)) : getBool fields k = Except.ok b := by
  simp [getBool, h]

theorem getStringList_of_lookup_errs (fields : List (String × Json)) (k : String)
    (errs : List String)
    (h : lookupField fields k
        = if errs.length > 0 then some (Json.arr (errs.map Json.str)) else none) :
    getStringList fields k = Except.ok errs := by
  cases errs with
  | nil => simp at h; simp [getStringList, h]
  | cons x xs =>
      simp at h
      simp only [getStringList, h]
      exact decodeStringList_map_str (x :: xs)

theorem getEntityValues_of_lookup (fields : List (String × Json)) (k : String)
    (vs : List EntityValue)
    (h : lookupField fields k = some (Json.arr (vs.map entityValueToJson))) :
    getEntityValues fields k = Except.ok vs := by
  simp [getEntityValues, h, decodeEntityValues_roundtrip]

theorem entityFromJson_obj (fields : List (String × Json)) (err code : Option String)
    (errs : List String) (body id name doc lang : Option String)
    (closed exotic builtin : Bool) (values : List EntityValue)
    (h1 : getOptString fields "error" = Except.ok err)
    (h2 : getOptString fields "code" = Except.ok code)
    (h3 : getStringList fields "errors" = Except.ok errs)
    (h4 : getOptString fields "body" = Except.ok body)
    (h5 : getOptString fields "id" = Except.ok id)
    (h6 : getOptString fields "name" = Except.ok name)
    (h7 : getOptString fields "doc" = Except.ok doc)
    (h8 : getOptString fields "lang" = Except.ok lang)
    (h9 : getBool fields "closed" = Except.ok closed)
    (h10 : getBool fields "exotic" = Except.ok exotic)
    (h11 : getBool fields "builtin" = Except.ok builtin)
    (h12 : getEntityValues fields "values" = Except.ok values) :
    entityFromJson (Json.obj fields)
      = Except.ok ⟨⟨err, code, errs, body⟩, id, name, doc, lang, closed, exotic, builtin,
          values⟩ := by
  simp only [entityFromJson, h1, h2, h3, h4, h5, h6, h7, h8, h9, h10, h11, h12]
  rfl

/-- C9: marshaling an `Entity` to JSON and unmarshaling the result yields
the original structure, for every entity and in particular for the entity
whose value list is `[{value: "a", expressions: ["x", "y"]}]`. -/
theorem entity_roundtrip (e : Entity) :
    entityFromJson (entityToJson e) = Except.ok e ∧
    entityFromJson (entityToJson
        ⟨⟨none, none, [], none⟩, none, none, none, none, false, false, false,
         [⟨["x", "y"], some "a"⟩]⟩)
      = Except.ok
          ⟨⟨none, none, [], none⟩, none, none, none, none, false, false, false,
           [⟨["x", "y"], some "a"⟩]⟩ := by
  have main : ∀ e₂ : Entity, entityFromJson (entityToJson e₂) = Except.ok e₂ := by
    intro e₂
    obtain ⟨⟨err, code, errs, body⟩, id, name, doc, lang, closed, exotic, builtin, values⟩ := e₂
    simp only [entityToJson]
    refine entityFromJson_obj _ _ _ _ _ _ _ _ _ _ _ _ _ ?_ ?_ ?_ ?_ ?_ ?_ ?_ ?_ ?_ ?_ ?_ ?_
    · exact getOptString_of_lookup_map _ _ _ (by
        simp [lookupField_append, lookupField_optFieldStr_self, lookupField_optFieldStr_ne,
          lookupField_errsField_ne, lookupField_cons, lookupField_nil])
    · exact getOptString_of_lookup_map _ _ _ (by
        simp [lookupField_append, lookupField_optFieldStr_self, lookupField_optFieldStr_ne,
          lookupField_errsField_ne, lookupField_cons, lookupField_nil])
    · exact getStringList_of_lookup_errs _ _ _ (by
        simp [lookupField_append, lookupField_errsField_self, lookupField_optFieldStr_ne,
          lookupField_cons, lookupField_nil])
    · exact getOptString_of_lookup_map _ _ _ (by
        simp [lookupField_append, lookupField_optFieldStr_self, lookupField_optFieldStr_ne,
          lookupField_errsField_ne, lookupField_cons, lookupField_nil])
    · exact getOptString_of_lookup_opt _ _ _ (by
        simp [lookupField_append, lookupField_optFieldStr_ne, lookupField_errsField_ne,
          lookupField_cons, lookupField_nil])
    · exact getOptString_of_lookup_opt _ _ _ (by
        simp [lookupField_append, lookupField_optFieldStr_ne, lookupField_errsField_ne,
          lookupField_cons, lookupField_nil])
    · exact getOptString_of_lookup_opt _ _ _ (by
        simp [lookupField_append, lookupField_optFieldStr_ne, lookupField_errsField_ne,
          lookupField_cons, lookupField_nil])
    · exact getOptString_of_lookup_opt _ _ _ (by
        simp [lookupField_append, lookupField_optFieldStr_ne, lookupField_errsField_ne,
          lookupField_cons, lookupField_nil])
    · exact getBool_of_lookup _ _ _ (by
        simp [lookupField_append, lookupField_optFieldStr_ne, lookupField_errsField_ne,
          lookupField_cons, lookupField_nil])
    · exact getBool_of_lookup _ _ _ (by
        simp [lookupField_append, lookupField_optFieldStr_ne, lookupField_errsField_ne,
          lookupField_cons, lookupField_nil])
    · exact getBool_of_lookup _ _ _ (by
        simp [lookupField_append, lookupField_optFieldStr_ne, lookupField_errsField_ne,
          lookupField_cons, lookupField_nil])
    · exact getEntityValues_of_lookup _ _ _ (by
        simp [lookupField_append, lookupField_optFieldStr_ne, lookupField_errsField_ne,
          lookupField_cons, lookupField_nil])
  exact ⟨main e, main _⟩

end Witai
